import Mathlib

/-!
Verification of the `Matrix2D` wrapper class from
`src/solutions/Abhishek/matrix_challenge_Abhishek_1RF23IS003.py`.

The class wraps a NumPy ndarray (`self.mat`) and overloads the arithmetic
operators.  We embed it shallowly:

* `NDArray` models a NumPy ndarray of numeric entries of rank 0..3
  (ranks beyond 3 never appear in any claim).  Entries are modelled as
  integers: every input occurring in the program and in the claims is an
  integer matrix, and NumPy integer arithmetic is exact at these sizes.
* `PyList` models a nested Python `list` of numbers; `npArray` models the
  `np.array(data)` conversion applied to such a (homogeneous) list.
* `PyData` models the possible constructor arguments: a list, an existing
  ndarray, a (nested) tuple — which is a sequence but not a `list` — or a
  raw scalar.
* `Matrix2D.init` models `Matrix2D.__init__`, with Python exceptions as
  `Except PyErr`: `PyErr.typeError` is `TypeError`, `PyErr.valueError` is
  `ValueError` (the error the spec calls *ShapeError* is the constructor's
  `ValueError("Only 1D or 2D matrices are allowed")`).
* The operators `__add__`, `__sub__`, `__mul__`, `__matmul__`, `__pow__`
  are `addOp`, `subOp`, `mulOp`, `matmulOp`, `powOp`.  Each of them feeds
  the freshly computed ndarray back through the constructor, exactly as
  the Python code does (`return Matrix2D(...)`).

A second, heap-passing model (`Heap`, `MatrixRef`, `initH`, `addOpH`, ...)
makes object identity and allocation explicit, so that the aliasing /
no-mutation claims can be stated: every ndarray lives at an address into a
heap, NumPy operations allocate fresh arrays, and the constructor stores a
passed-in ndarray without copying it.
-/

namespace MatrixReloaded

/-- Python exception kinds raised by the module: `TypeError` and
`ValueError`.  The spec's *ShapeError* is the `ValueError` raised by the
constructor on a rank outside {1, 2}; dimension-mismatch errors raised
inside NumPy are also `ValueError`s. -/
inductive PyErr where
  | typeError
  | valueError
deriving DecidableEq

/-- A NumPy ndarray of integer entries, rank 0 to 3.  A rank-2 array is a
list of rows. -/
inductive NDArray where
  | d0 (x : Int)
  | d1 (xs : List Int)
  | d2 (xss : List (List Int))
  | d3 (xsss : List (List (List Int)))
deriving DecidableEq

/-- Models `a.ndim`. -/
def NDArray.ndim : NDArray → Nat
  | .d0 _ => 0
  | .d1 _ => 1
  | .d2 _ => 2
  | .d3 _ => 3

/-- Number of rows of a rank-2 payload. -/
def rows2 (x : List (List Int)) : Nat := x.length

/-- Number of columns of a rank-2 payload (NumPy arrays are rectangular,
so the first row is representative). -/
def cols2 (x : List (List Int)) : Nat := (x.headD []).length

/-- Models `a.shape` (a Python tuple, one entry per axis). -/
def NDArray.shape : NDArray → List Nat
  | .d0 _ => []
  | .d1 xs => [xs.length]
  | .d2 xss => [rows2 xss, cols2 xss]
  | .d3 xsss => [xsss.length, (xsss.headD []).length, ((xsss.headD []).headD []).length]

/-- Rectangularity of a rank-2 payload: every row has the length of the
first row.  NumPy guarantees this for every actual ndarray. -/
def regular2 (x : List (List Int)) : Prop :=
  ∀ row ∈ x, row.length = cols2 x

instance (x : List (List Int)) : Decidable (regular2 x) :=
  inferInstanceAs (Decidable (∀ row ∈ x, row.length = cols2 x))

/-- Rectangularity of a rank-3 payload. -/
def regular3 (t : List (List (List Int))) : Prop :=
  (∀ u ∈ t, u.length = (t.headD []).length) ∧
    ∀ u ∈ t, ∀ v ∈ u, v.length = ((t.headD []).headD []).length

instance (t : List (List (List Int))) : Decidable (regular3 t) :=
  inferInstanceAs (Decidable (_ ∧ _))

/-- A nested Python `list` of numbers, of nesting depth 1 to 3. -/
inductive PyList where
  | l1 (xs : List Int)
  | l2 (xss : List (List Int))
  | l3 (xsss : List (List (List Int)))
deriving DecidableEq

/-- Models `np.array(data)` on a homogeneous nested list.  The empty
Python list `[]` has no nesting depth of its own and converts to a rank-1
empty array, which the `.l2 []` / `.l3 []` cases reflect. -/
def npArray : PyList → NDArray
  | .l1 xs => .d1 xs
  | .l2 [] => .d1 []
  | .l2 xss => .d2 xss
  | .l3 [] => .d1 []
  | .l3 xsss => .d3 xsss

/-- A value passed to `Matrix2D.__init__`: a Python list, an existing
ndarray, a (nested) tuple — a sequence that is not a `list` — or a raw
scalar number. -/
inductive PyData where
  | pylist (l : PyList)
  | pyarray (a : NDArray)
  | pytuple (t : PyList)
  | pyscalar (x : Int)
deriving DecidableEq

/-- The wrapper object: `self.mat` is the stored ndarray. -/
structure Matrix2D where
  mat : NDArray
deriving DecidableEq

/-- The tail of `Matrix2D.__init__` once `data` is known to be an ndarray:
`if data.ndim == 1: data = data.reshape(1, -1)` (a length-N rank-1 array
becomes the single row `1 × N`), `elif data.ndim != 2: raise ValueError`,
then `self.mat = data`. -/
def Matrix2D.normalize (a : NDArray) : Except PyErr Matrix2D :=
  match a with
  | .d1 xs => .ok ⟨.d2 [xs]⟩
  | .d2 xss => .ok ⟨.d2 xss⟩
  | _ => .error .valueError

/-- Models `Matrix2D.__init__(data)`: a `list` is first converted with
`np.array`; anything that is then not an ndarray (tuples, scalars) raises
`TypeError("Data must be a list or NumPy array")`; finally the rank check
of `Matrix2D.normalize` runs. -/
def Matrix2D.init (data : PyData) : Except PyErr Matrix2D :=
  match data with
  | .pylist l => Matrix2D.normalize (npArray l)
  | .pyarray a => Matrix2D.normalize a
  | .pytuple _ => .error .typeError
  | .pyscalar _ => .error .typeError

/-- Models `Matrix2D.shape(self)`, i.e. `self.mat.shape`. -/
def Matrix2D.shape (m : Matrix2D) : List Nat := m.mat.shape

/-- Entry `x[i][j]` of a rank-2 payload (total, with NumPy-irrelevant
defaults out of range). -/
def entry2 (x : List (List Int)) (i j : Nat) : Int := (x.getD i []).getD j 0

/-- Entry `t[a][i][j]` of a rank-3 payload. -/
def entry3 (t : List (List (List Int))) (a i j : Nat) : Int :=
  ((t.getD a []).getD i []).getD j 0

/-- The rank-2 array of shape `(r, c)` whose `(i, j)` entry is `g i j`. -/
def tabulate2 (r c : Nat) (g : Nat → Nat → Int) : List (List Int) :=
  (List.range r).map fun i => (List.range c).map fun j => g i j

/-- NumPy broadcasting of one axis: equal extents match, and extent 1
stretches to the other extent; anything else is a mismatch. -/
def bcastDim (a b : Nat) : Option Nat :=
  if a = b then some a else if a = 1 then some b else if b = 1 then some a else none

/-- Broadcast source index along one axis: an axis of extent 1 always
reads its only entry. -/
def bidx (n i : Nat) : Nat := if n = 1 then 0 else i

/-- NumPy element-wise binary operation on two rank-2 arrays, with
broadcasting; a shape mismatch raises the library's `ValueError`. -/
def bcast2 (f : Int → Int → Int) (x y : List (List Int)) :
    Except PyErr (List (List Int)) :=
  match bcastDim (rows2 x) (rows2 y), bcastDim (cols2 x) (cols2 y) with
  | some r, some c =>
      .ok (tabulate2 r c fun i j =>
        f (entry2 x (bidx (rows2 x) i) (bidx (cols2 x) j))
          (entry2 y (bidx (rows2 y) i) (bidx (cols2 y) j)))
  | _, _ => .error .valueError

/-- NumPy element-wise binary operation of a rank-2 array with a rank-3
array: the rank-2 operand is left-padded to `(1, r, c)` and broadcast. -/
def bcast23 (f : Int → Int → Int) (x : List (List Int))
    (y : List (List (List Int))) : Except PyErr (List (List (List Int))) :=
  let q := (y.headD []).length
  let s := ((y.headD []).headD []).length
  match bcastDim (rows2 x) q, bcastDim (cols2 x) s with
  | some b, some c =>
      .ok ((List.range y.length).map fun a =>
        (List.range b).map fun i => (List.range c).map fun j =>
          f (entry2 x (bidx (rows2 x) i) (bidx (cols2 x) j))
            (entry3 y a (bidx q i) (bidx s j)))
  | _, _ => .error .valueError

/-- NumPy element-wise binary operation (`+`, `-`, `*`) as reachable from
`Matrix2D`: the left operand (`self.mat`) is always rank-2 (the
constructor invariant), and the right operand is a scalar or an array of
rank 1, 2 or 3.  A rank-1 right operand is broadcast as a single row. -/
def npBinop (f : Int → Int → Int) (x y : NDArray) : Except PyErr NDArray :=
  match x, y with
  | .d2 a, .d0 s => .ok (.d2 (a.map fun row => row.map fun e => f e s))
  | .d2 a, .d1 ys => (bcast2 f a [ys]).map .d2
  | .d2 a, .d2 b => (bcast2 f a b).map .d2
  | .d2 a, .d3 b => (bcast23 f a b).map .d3
  | _, _ => .error .valueError

/-- Column `j` of a rank-2 payload. -/
def colj (y : List (List Int)) (j : Nat) : List Int :=
  y.map fun row => row.getD j 0

/-- Dot product of two equally long vectors. -/
def dot (u v : List Int) : Int := (List.zipWith (· * ·) u v).sum

/-- NumPy `@` on two rank-2 arrays: the inner dimensions must agree
(otherwise the library raises its dimension-mismatch `ValueError`), and
the `(i, j)` result entry is the dot product of row `i` of the left
operand with column `j` of the right operand. -/
def npMatmul (x y : List (List Int)) : Except PyErr (List (List Int)) :=
  if cols2 x = rows2 y then
    .ok (tabulate2 (rows2 x) (cols2 y) fun i j => dot (x.getD i []) (colj y j))
  else .error .valueError

/-- NumPy `np.power(a, p)` for a natural scalar exponent: element-wise
power.  (The demo only uses exponent 2; on integer arrays NumPy rejects
negative integer exponents, so natural exponents are the valid domain.) -/
def npPower (x : NDArray) (p : Nat) : NDArray :=
  match x with
  | .d0 v => .d0 (v ^ p)
  | .d1 xs => .d1 (xs.map (· ^ p))
  | .d2 xss => .d2 (xss.map fun row => row.map (· ^ p))
  | .d3 t => .d3 (t.map fun u => u.map fun v => v.map (· ^ p))

/-- The second operand of `__add__` / `__sub__` / `__mul__` /
`__matmul__`: another `Matrix2D`, a raw scalar, or a raw ndarray. -/
inductive Operand where
  | matrix (m : Matrix2D)
  | scalar (x : Int)
  | arr (a : NDArray)
deriving DecidableEq

/-- The ndarray value NumPy sees for an operand: `other.mat` for a
`Matrix2D`, the rank-0 array for a scalar, the array itself otherwise. -/
def Operand.val : Operand → NDArray
  | .matrix m => m.mat
  | .scalar x => .d0 x
  | .arr a => a

/-- Models `__add__`: `Matrix2D(self.mat + other.mat)` when `other` is a
`Matrix2D`, else `Matrix2D(self.mat + other)`.  The freshly computed
array goes back through the constructor. -/
def Matrix2D.addOp (A : Matrix2D) (other : Operand) : Except PyErr Matrix2D :=
  (npBinop (· + ·) A.mat other.val).bind Matrix2D.normalize

/-- Models `__sub__`, symmetric to `__add__`. -/
def Matrix2D.subOp (A : Matrix2D) (other : Operand) : Except PyErr Matrix2D :=
  (npBinop (· - ·) A.mat other.val).bind Matrix2D.normalize

/-- Models `__mul__` (element-wise Hadamard product). -/
def Matrix2D.mulOp (A : Matrix2D) (other : Operand) : Except PyErr Matrix2D :=
  (npBinop (· * ·) A.mat other.val).bind Matrix2D.normalize

/-- Models `__matmul__`: a non-`Matrix2D` operand raises
`TypeError("Matrix multiplication requires another Matrix2D")` before any
numeric work; otherwise `Matrix2D(self.mat @ other.mat)`.  Stored arrays
are always rank-2 (the constructor invariant), which the rank-2 pattern
reflects. -/
def Matrix2D.matmulOp (A : Matrix2D) (other : Operand) : Except PyErr Matrix2D :=
  match other with
  | .matrix B =>
      match A.mat, B.mat with
      | .d2 x, .d2 y => (npMatmul x y).bind fun z => Matrix2D.normalize (.d2 z)
      | _, _ => .error .valueError
  | _ => .error .typeError

/-- Models `__pow__`: `Matrix2D(np.power(self.mat, power))`. -/
def Matrix2D.powOp (A : Matrix2D) (p : Nat) : Except PyErr Matrix2D :=
  Matrix2D.normalize (npPower A.mat p)

/-- `A = Matrix2D([[1, 2], [3, 4]])` from `demo_complex_expression`. -/
def demoA : Except PyErr Matrix2D := Matrix2D.init (.pylist (.l2 [[1, 2], [3, 4]]))

/-- `B = Matrix2D([5, 6])` from `demo_complex_expression`. -/
def demoB : Except PyErr Matrix2D := Matrix2D.init (.pylist (.l1 [5, 6]))

/-- The fixed demo expression `(A + B) @ ((A - B) ** 2)` of
`demo_complex_expression` (any raised exception propagates). -/
def demo_complex_expression : Except PyErr Matrix2D := do
  let A ← demoA
  let B ← demoB
  let s ← A.addOp (.matrix B)
  let d ← A.subOp (.matrix B)
  let p ← d.powOp 2
  s.matmulOp (.matrix p)

/-! ### Heap model

Python objects have identity.  To state the aliasing and no-mutation
claims we re-run the same code over an explicit heap: every ndarray lives
at an address (an index into a list), `np.array` and every NumPy
arithmetic primitive allocate a fresh array, and `self.mat = data` in the
constructor stores the address of the ndarray it was handed, without
copying.  (`reshape` is modelled as producing a fresh ndarray object
holding the reshaped value; buffer sharing between a reshape view and its
base is not modelled, and no claim concerns it.) -/

/-- The heap: address `i` holds the ndarray `h.getD i _`. -/
abbrev Heap := List NDArray

/-- A `Matrix2D` object in the heap model: `self.mat` is the address of
the wrapped ndarray. -/
structure MatrixRef where
  mat : Nat
deriving DecidableEq

/-- Read the ndarray at an address (addresses in use are always in
bounds; the default is irrelevant). -/
def readA (h : Heap) (r : Nat) : NDArray := h.getD r (.d0 0)

/-- Allocate a fresh ndarray, returning the new heap and its address. -/
def alloc (h : Heap) (a : NDArray) : Heap × Nat := (h ++ [a], h.length)

/-- An external in-place write to the ndarray at address `r` (e.g.
NumPy fancy assignment done by the caller, outside the wrapper). -/
def heapWrite (h : Heap) (r : Nat) (a : NDArray) : Heap := h.set r a

/-- Constructor argument in the heap model: a list is passed by value
(its `np.array` conversion will allocate), an ndarray is passed by
address. -/
inductive PyDataH where
  | pylist (l : PyList)
  | pyarray (a : Nat)
  | pytuple (t : PyList)
  | pyscalar (x : Int)

/-- The tail of `__init__` on the ndarray at address `a`: a rank-1 array
is reshaped — a fresh ndarray object — and stored; a rank-2 array is
stored as-is, `self.mat = data`, without any copy; other ranks raise
`ValueError`. -/
def initArrH (h : Heap) (a : Nat) : Except PyErr (Heap × MatrixRef) :=
  match readA h a with
  | .d1 xs => let p := alloc h (.d2 [xs]); .ok (p.1, ⟨p.2⟩)
  | .d2 _ => .ok (h, ⟨a⟩)
  | _ => .error .valueError

/-- Models `Matrix2D.__init__` over the heap: `np.array` on a list
allocates a fresh array; tuples and scalars raise `TypeError`. -/
def initH (h : Heap) (d : PyDataH) : Except PyErr (Heap × MatrixRef) :=
  match d with
  | .pylist l => let p := alloc h (npArray l); initArrH p.1 p.2
  | .pyarray a => initArrH h a
  | .pytuple _ => .error .typeError
  | .pyscalar _ => .error .typeError

/-- An operator's second operand in the heap model. -/
inductive OperandH where
  | matrix (m : MatrixRef)
  | scalar (x : Int)
  | arr (a : Nat)

/-- The ndarray value NumPy reads for an operand. -/
def OperandH.val (h : Heap) : OperandH → NDArray
  | .matrix m => readA h m.mat
  | .scalar x => .d0 x
  | .arr a => readA h a

/-- Addresses an operand dereferences are in bounds. -/
def OperandH.inBounds (h : Heap) : OperandH → Prop
  | .matrix m => m.mat < h.length
  | .scalar _ => True
  | .arr a => a < h.length

/-- An element-wise operator (`__add__` / `__sub__` / `__mul__`) over the
heap: NumPy computes the result into a freshly allocated array, and the
`Matrix2D(...)` constructor call wraps that fresh array. -/
def binOpH (f : Int → Int → Int) (h : Heap) (A : MatrixRef) (o : OperandH) :
    Except PyErr (Heap × MatrixRef) :=
  match npBinop f (readA h A.mat) (o.val h) with
  | .error e => .error e
  | .ok v => let p := alloc h v; initArrH p.1 p.2

/-- Models `__add__` over the heap. -/
def addOpH (h : Heap) (A : MatrixRef) (o : OperandH) :
    Except PyErr (Heap × MatrixRef) := binOpH (· + ·) h A o

/-- Models `__sub__` over the heap. -/
def subOpH (h : Heap) (A : MatrixRef) (o : OperandH) :
    Except PyErr (Heap × MatrixRef) := binOpH (· - ·) h A o

/-- Models `__mul__` over the heap. -/
def mulOpH (h : Heap) (A : MatrixRef) (o : OperandH) :
    Except PyErr (Heap × MatrixRef) := binOpH (· * ·) h A o

/-- Models `__matmul__` over the heap: `TypeError` on a non-`Matrix2D`
operand, otherwise `self.mat @ other.mat` into a fresh array. -/
def matmulOpH (h : Heap) (A : MatrixRef) (o : OperandH) :
    Except PyErr (Heap × MatrixRef) :=
  match o with
  | .matrix B =>
      match readA h A.mat, readA h B.mat with
      | .d2 x, .d2 y =>
          match npMatmul x y with
          | .error e => .error e
          | .ok z => let p := alloc h (.d2 z); initArrH p.1 p.2
      | _, _ => .error .valueError
  | _ => .error .typeError

/-- Models `__pow__` over the heap: `np.power` computes into a fresh
array. -/
def powOpH (h : Heap) (A : MatrixRef) (p : Nat) :
    Except PyErr (Heap × MatrixRef) :=
  let q := alloc h (npPower (readA h A.mat) p)
  initArrH q.1 q.2

/-- Models `Matrix2D.shape` over the heap. -/
def shapeH (h : Heap) (m : MatrixRef) : List Nat := (readA h m.mat).shape

/-- The ndarray value a `Matrix2D` renders and computes with (`__str__`
and every operator read `self.mat`). -/
def observeH (h : Heap) (m : MatrixRef) : NDArray := readA h m.mat

/-- The wrapped-array value a heap run produces, forgetting addresses:
what "the resulting Matrix contents" means. -/
def runVal (x : Except PyErr (Heap × MatrixRef)) : Except PyErr NDArray :=
  x.map fun p => readA p.1 p.2.mat

/-- The per-call frame property of claim C8: the pre-existing heap is
untouched — in particular both operands' wrapped arrays compare equal
before and after the call — and the result wraps a freshly allocated
array, aliased to neither operand's array. -/
def frameOk (h : Heap) (A : MatrixRef) (o : OperandH) (h2 : Heap)
    (R : MatrixRef) : Prop :=
  (∀ i, i < h.length → readA h2 i = readA h i) ∧
  readA h2 A.mat = readA h A.mat ∧
  (∀ B : MatrixRef, o = .matrix B →
    readA h2 B.mat = readA h B.mat ∧ R.mat ≠ B.mat) ∧
  h.length ≤ R.mat ∧ R.mat ≠ A.mat

/-! ### Helper lemmas -/

theorem length_tabulate2 (r c : Nat) (g : Nat → Nat → Int) :
    (tabulate2 r c g).length = r := by
  simp [tabulate2]

theorem rows_tabulate2 (r c : Nat) (g : Nat → Nat → Int) :
    ∀ row ∈ tabulate2 r c g, row.length = c := by
  intro row hrow
  simp only [tabulate2, List.mem_map] at hrow
  obtain ⟨i, _, hi⟩ := hrow
  simp [← hi]

theorem cols2_tabulate2 {r : Nat} (c : Nat) (g : Nat → Nat → Int) (hr : 0 < r) :
    cols2 (tabulate2 r c g) = c := by
  obtain ⟨r', rfl⟩ : ∃ r', r = r' + 1 := ⟨r - 1, by omega⟩
  simp [tabulate2, cols2, List.range_succ_eq_map]

theorem regular2_tabulate2 (r c : Nat) (g : Nat → Nat → Int) :
    regular2 (tabulate2 r c g) := by
  intro row hrow
  rw [rows_tabulate2 r c g row hrow]
  rcases Nat.eq_zero_or_pos r with h0 | hp
  · subst h0
    simp [tabulate2] at hrow
  · rw [cols2_tabulate2 c g hp]

theorem entry2_tabulate2 {r c i j : Nat} (g : Nat → Nat → Int)
    (hi : i < r) (hj : j < c) : entry2 (tabulate2 r c g) i j = g i j := by
  have hi' : i < (tabulate2 r c g).length := by simpa [length_tabulate2] using hi
  unfold entry2
  rw [List.getD_eq_getElem _ _ hi']
  simp only [tabulate2, List.getElem_map, List.getElem_range]
  have hj' : j < ((List.range c).map fun j => g i j).length := by simpa using hj
  rw [List.getD_eq_getElem _ _ hj']
  simp

theorem tabulate2_congr {r c : Nat} {g g' : Nat → Nat → Int}
    (h : ∀ i < r, ∀ j < c, g i j = g' i j) :
    tabulate2 r c g = tabulate2 r c g' := by
  unfold tabulate2
  refine List.map_congr_left fun i hi => List.map_congr_left fun j hj => ?_
  exact h i (List.mem_range.mp hi) j (List.mem_range.mp hj)

theorem tabulate2_recon (x : List (List Int)) (hx : regular2 x) :
    tabulate2 (rows2 x) (cols2 x) (fun i j => entry2 x i j) = x := by
  apply List.ext_getElem
  · simp [length_tabulate2, rows2]
  · intro i h1 h2
    rw [show (tabulate2 (rows2 x) (cols2 x) fun i j => entry2 x i j)[i] =
        (List.range (cols2 x)).map (fun j => entry2 x i j) by
      simp [tabulate2]]
    apply List.ext_getElem
    · simpa using (hx x[i] (List.getElem_mem h2)).symm
    · intro j hj1 hj2
      simp only [List.getElem_map, List.getElem_range]
      unfold entry2
      rw [List.getD_eq_getElem _ _ h2, List.getD_eq_getElem _ _ hj2]

theorem bcastDim_self (a : Nat) : bcastDim a a = some a := by
  simp [bcastDim]

theorem bidx_of_lt {n i : Nat} (h : i < n) : bidx n i = i := by
  unfold bidx
  split
  · omega
  · rfl

theorem bcast2_of_eq_shape (f : Int → Int → Int) (x y : List (List Int))
    (hr : rows2 x = rows2 y) (hc : cols2 x = cols2 y) :
    bcast2 f x y =
      .ok (tabulate2 (rows2 x) (cols2 x) fun i j =>
        f (entry2 x i j) (entry2 y i j)) := by
  have h1 : bcast2 f x y =
      .ok (tabulate2 (rows2 x) (cols2 x) fun i j =>
        f (entry2 x (bidx (rows2 x) i) (bidx (cols2 x) j))
          (entry2 y (bidx (rows2 x) i) (bidx (cols2 x) j))) := by
    unfold bcast2
    rw [← hr, ← hc, bcastDim_self, bcastDim_self]
  rw [h1]
  congr 1
  apply tabulate2_congr
  intro i hi j hj
  rw [bidx_of_lt hi, bidx_of_lt hj]

theorem normalize_ok_ndim {a : NDArray} {m : Matrix2D}
    (h : Matrix2D.normalize a = .ok m) : m.mat.ndim = 2 := by
  cases a <;> simp only [Matrix2D.normalize, Except.ok.injEq] at h
  · exact absurd h (by simp)
  · rw [← h]; rfl
  · rw [← h]; rfl
  · exact absurd h (by simp)

theorem normalize_ne_typeError (a : NDArray) :
    Matrix2D.normalize a ≠ .error .typeError := by
  cases a <;> simp [Matrix2D.normalize]

theorem except_bind_ok {ε α β : Type} {e : Except ε α} {f : α → Except ε β}
    {b : β} (h : e.bind f = .ok b) : ∃ a, e = .ok a ∧ f a = .ok b := by
  cases e with
  | error err => exact absurd h (by simp [Except.bind])
  | ok a => exact ⟨a, rfl, h⟩

theorem dot_eq_sum : ∀ (u v : List Int), u.length = v.length →
    dot u v = ∑ k ∈ Finset.range u.length, u.getD k 0 * v.getD k 0
  | [], [], _ => by simp [dot]
  | [], _ :: _, h => by simp at h
  | _ :: _, [], h => by simp at h
  | a :: u, b :: v, h => by
    have ih := dot_eq_sum u v (by simpa using h)
    simp only [dot, List.zipWith_cons_cons, List.sum_cons] at *
    rw [List.length_cons, Finset.sum_range_succ']
    simp only [List.getD_cons_succ, List.getD_cons_zero]
    rw [ih]
    ring

theorem colj_getD {y : List (List Int)} {k : Nat} (j : Nat) (hk : k < y.length) :
    (colj y j).getD k 0 = entry2 y k j := by
  unfold colj entry2
  rw [List.getD_eq_getElem _ _ (by simpa using hk), List.getElem_map,
    List.getD_eq_getElem _ _ hk]

theorem rows2_tabulate2 (r c : Nat) (g : Nat → Nat → Int) :
    rows2 (tabulate2 r c g) = r := by
  simp [rows2, tabulate2]

theorem addOp_d2 (x y : List (List Int)) :
    Matrix2D.addOp ⟨.d2 x⟩ (.matrix ⟨.d2 y⟩) =
      ((bcast2 (· + ·) x y).map NDArray.d2).bind Matrix2D.normalize := rfl

theorem subOp_d2 (x y : List (List Int)) :
    Matrix2D.subOp ⟨.d2 x⟩ (.matrix ⟨.d2 y⟩) =
      ((bcast2 (· - ·) x y).map NDArray.d2).bind Matrix2D.normalize := rfl

theorem matmulOp_d2 (x y : List (List Int)) :
    Matrix2D.matmulOp ⟨.d2 x⟩ (.matrix ⟨.d2 y⟩) =
      (npMatmul x y).bind fun z => Matrix2D.normalize (.d2 z) := rfl

theorem readA_append_lt {h : Heap} {i : Nat} (v : NDArray) (hi : i < h.length) :
    readA (h ++ [v]) i = readA h i :=
  List.getD_append h [v] _ i hi

theorem readA_append_self (h : Heap) (v : NDArray) :
    readA (h ++ [v]) h.length = v := by
  unfold readA
  rw [List.getD_append_right h [v] _ h.length (le_refl _)]
  simp

theorem readA_lt_of_d2 {h : Heap} {a : Nat} {xss : List (List Int)}
    (ha : readA h a = .d2 xss) : a < h.length := by
  by_contra hcon
  rw [readA, List.getD_eq_default _ _ (by omega)] at ha
  exact absurd ha (by simp)

theorem alloc_initArrH_cases (h : Heap) (v : NDArray) :
    initArrH (h ++ [v]) h.length =
      match v with
      | .d1 xs => .ok (h ++ [v] ++ [.d2 [xs]], ⟨h.length + 1⟩)
      | .d2 _ => .ok (h ++ [v], ⟨h.length⟩)
      | .d0 _ => .error .valueError
      | .d3 _ => .error .valueError := by
  unfold initArrH
  rw [readA_append_self]
  cases v with
  | d0 x => rfl
  | d1 xs => simp [alloc]
  | d2 xss => rfl
  | d3 t => rfl

theorem alloc_initArrH_frame {h : Heap} {v : NDArray} {h2 : Heap}
    {R : MatrixRef} (hok : initArrH (h ++ [v]) h.length = .ok (h2, R)) :
    (∀ i, i < h.length → readA h2 i = readA h i) ∧ h.length ≤ R.mat := by
  rw [alloc_initArrH_cases] at hok
  cases v with
  | d0 x => exact absurd hok (by simp)
  | d1 xs =>
    cases hok
    constructor
    · intro i hi
      have hi2 : i < (h ++ [NDArray.d1 xs]).length := by
        simp only [List.length_append, List.length_cons, List.length_nil]
        omega
      rw [readA_append_lt _ hi2, readA_append_lt _ hi]
    · exact Nat.le_succ _
  | d2 xss =>
    cases hok
    exact ⟨fun i hi => readA_append_lt _ hi, le_refl _⟩
  | d3 t => exact absurd hok (by simp)

theorem alloc_initArrH_val (h : Heap) (v : NDArray) :
    runVal (initArrH (h ++ [v]) h.length) =
      (Matrix2D.normalize v).map Matrix2D.mat := by
  rw [alloc_initArrH_cases]
  cases v with
  | d0 x => rfl
  | d1 xs =>
    have e : readA (h ++ [NDArray.d1 xs] ++ [NDArray.d2 [xs]]) (h.length + 1) =
        NDArray.d2 [xs] := by
      have hl : h.length + 1 = (h ++ [NDArray.d1 xs]).length := by simp
      rw [hl, readA_append_self]
    show Except.ok (readA (h ++ [NDArray.d1 xs] ++ [NDArray.d2 [xs]]) (h.length + 1)) =
      Except.ok (NDArray.d2 [xs])
    rw [e]
  | d2 xss =>
    show Except.ok (readA (h ++ [NDArray.d2 xss]) h.length) = Except.ok (NDArray.d2 xss)
    rw [readA_append_self]
  | d3 t => rfl

theorem binOpH_frame {f : Int → Int → Int} {h : Heap} {A : MatrixRef}
    {o : OperandH} {h2 : Heap} {R : MatrixRef}
    (hok : binOpH f h A o = .ok (h2, R)) :
    (∀ i, i < h.length → readA h2 i = readA h i) ∧ h.length ≤ R.mat := by
  unfold binOpH at hok
  cases hnp : npBinop f (readA h A.mat) (o.val h) with
  | error e => rw [hnp] at hok; exact absurd hok (by simp)
  | ok v =>
    rw [hnp] at hok
    simp only [alloc] at hok
    exact alloc_initArrH_frame hok

theorem matmulOpH_frame {h : Heap} {A : MatrixRef} {o : OperandH}
    {h2 : Heap} {R : MatrixRef}
    (hok : matmulOpH h A o = .ok (h2, R)) :
    (∀ i, i < h.length → readA h2 i = readA h i) ∧ h.length ≤ R.mat := by
  unfold matmulOpH at hok
  split at hok
  · split at hok
    · split at hok
      · exact absurd hok (by simp)
      · simp only [alloc] at hok
        exact alloc_initArrH_frame hok
    · exact absurd hok (by simp)
  · exact absurd hok (by simp)

theorem powOpH_frame {h : Heap} {A : MatrixRef} {p : Nat} {h2 : Heap}
    {R : MatrixRef} (hok : powOpH h A p = .ok (h2, R)) :
    (∀ i, i < h.length → readA h2 i = readA h i) ∧ h.length ≤ R.mat := by
  unfold powOpH at hok
  simp only [alloc] at hok
  exact alloc_initArrH_frame hok

theorem binOpH_val (f : Int → Int → Int) (h : Heap) (A : MatrixRef)
    (o : OperandH) :
    runVal (binOpH f h A o) =
      ((npBinop f (readA h A.mat) (o.val h)).bind Matrix2D.normalize).map
        Matrix2D.mat := by
  unfold binOpH
  cases hnp : npBinop f (readA h A.mat) (o.val h) with
  | error e => rfl
  | ok v =>
    simp only [alloc]
    rw [alloc_initArrH_val]
    rfl

theorem initH_pylist_val (h : Heap) (l : PyList) :
    runVal (initH h (.pylist l)) =
      (Matrix2D.init (.pylist l)).map Matrix2D.mat := by
  unfold initH
  simp only [alloc]
  rw [alloc_initArrH_val]
  rfl

theorem matmulOpH_val (h : Heap) (A B : MatrixRef) :
    runVal (matmulOpH h A (.matrix B)) =
      (Matrix2D.matmulOp ⟨readA h A.mat⟩ (.matrix ⟨readA h B.mat⟩)).map
        Matrix2D.mat := by
  have e1 : matmulOpH h A (.matrix B) =
      (match readA h A.mat, readA h B.mat with
        | .d2 x, .d2 y =>
            match npMatmul x y with
            | .error e => .error e
            | .ok z => (fun p => initArrH p.1 p.2) (alloc h (.d2 z))
        | _, _ => .error .valueError) := rfl
  have e2 : Matrix2D.matmulOp ⟨readA h A.mat⟩ (.matrix ⟨readA h B.mat⟩) =
      (match readA h A.mat, readA h B.mat with
        | .d2 x, .d2 y => (npMatmul x y).bind fun z => Matrix2D.normalize (.d2 z)
        | _, _ => .error .valueError) := rfl
  rw [e1, e2]
  cases readA h A.mat with
  | d2 x =>
    cases readA h B.mat with
    | d2 y =>
      show runVal (match npMatmul x y with
          | Except.error e => Except.error e
          | Except.ok z => initArrH (h ++ [NDArray.d2 z]) h.length) =
        ((npMatmul x y).bind fun z =>
          Matrix2D.normalize (NDArray.d2 z)).map Matrix2D.mat
      cases npMatmul x y with
      | error e => rfl
      | ok z =>
        rw [alloc_initArrH_val]
        rfl
    | d0 c => rfl
    | d1 xs => rfl
    | d3 t => rfl
  | d0 c => cases readA h B.mat <;> rfl
  | d1 xs => cases readA h B.mat <;> rfl
  | d3 t => cases readA h B.mat <;> rfl

theorem powOpH_val (h : Heap) (A : MatrixRef) (p : Nat) :
    runVal (powOpH h A p) =
      (Matrix2D.powOp ⟨readA h A.mat⟩ p).map Matrix2D.mat := by
  unfold powOpH
  simp only [alloc]
  rw [alloc_initArrH_val]
  rfl

/-! ### Claim theorems -/

/-- Claim C1: for every valid rank-1 input sequence of length N,
construction reshapes it to a single row and `shape()` returns `(1, N)`;
for every valid rank-2 input (a nonempty rectangular nested list — the
empty list `[]` is rank-1), `shape()` returns the original
`(rows, cols)` unchanged. -/
theorem C1_shape_after_construction :
    (∀ xs : List Int, ∃ m : Matrix2D,
      Matrix2D.init (.pylist (.l1 xs)) = .ok m ∧ m.shape = [1, xs.length]) ∧
    (∀ xss : List (List Int), xss ≠ [] → regular2 xss → ∃ m : Matrix2D,
      Matrix2D.init (.pylist (.l2 xss)) = .ok m ∧
        m.shape = [xss.length, (xss.headD []).length]) := by
  constructor
  · intro xs
    exact ⟨⟨.d2 [xs]⟩, rfl, rfl⟩
  · intro xss hne hreg
    cases xss with
    | nil => exact absurd rfl hne
    | cons a l => exact ⟨⟨.d2 (a :: l)⟩, rfl, rfl⟩

/-- Witness for C1 at the demo inputs `[5, 6]` and `[[1, 2], [3, 4]]`. -/
theorem C1_witness :
    (∃ m : Matrix2D, Matrix2D.init (.pylist (.l1 [5, 6])) = .ok m ∧
      m.shape = [1, 2]) ∧
    (∃ m : Matrix2D, Matrix2D.init (.pylist (.l2 [[1, 2], [3, 4]])) = .ok m ∧
      m.shape = [2, 2]) :=
  ⟨C1_shape_after_construction.1 [5, 6],
    C1_shape_after_construction.2 [[1, 2], [3, 4]] (by decide) (by decide)⟩

/-- Claim C2: the fixed demo expression `(A + B) @ ((A - B) ** 2)` of
`demo_complex_expression`, with `A = Matrix2D([[1, 2], [3, 4]])` and
`B = Matrix2D([5, 6])` (reshaped to one row and broadcast), evaluates to
the matrix `[[128, 128], [168, 168]]`. -/
theorem C2_demo_expression_value :
    demo_complex_expression = .ok ⟨.d2 [[128, 128], [168, 168]]⟩ := rfl

/-- Claim C3: for all matrices A and B of equal shape, `Add(A, B)`
entrywise equals the sum of corresponding entries, and `Subtract` is its
inverse: `Subtract(Add(A, B), B)` equals `A` entrywise — in fact exactly,
since the entries are integers.  (`x ≠ []` rules out the 0-row shapes
`(0, c)`, which no list input produces.) -/
theorem C3_add_entrywise_sub_roundtrip (x y : List (List Int))
    (hx : regular2 x) ( _hy : regular2 y) (hne : x ≠ [])
    (hr : rows2 x = rows2 y) (hc : cols2 x = cols2 y) :
    ∃ s : List (List Int),
      Matrix2D.addOp ⟨.d2 x⟩ (.matrix ⟨.d2 y⟩) = .ok ⟨.d2 s⟩ ∧
      rows2 s = rows2 x ∧ cols2 s = cols2 x ∧
      (∀ i j, i < rows2 x → j < cols2 x →
        entry2 s i j = entry2 x i j + entry2 y i j) ∧
      Matrix2D.subOp ⟨.d2 s⟩ (.matrix ⟨.d2 y⟩) = .ok ⟨.d2 x⟩ := by
  have hrpos : 0 < rows2 x := by
    cases x with
    | nil => exact absurd rfl hne
    | cons a l => simp [rows2]
  refine ⟨tabulate2 (rows2 x) (cols2 x) fun i j => entry2 x i j + entry2 y i j,
    ?_, rows2_tabulate2 _ _ _, cols2_tabulate2 _ _ hrpos, ?_, ?_⟩
  · rw [addOp_d2, bcast2_of_eq_shape _ _ _ hr hc]
    rfl
  · intro i j hi hj
    exact entry2_tabulate2 _ hi hj
  · rw [subOp_d2, bcast2_of_eq_shape _ _ _
      (by rw [rows2_tabulate2, hr]) (by rw [cols2_tabulate2 _ _ hrpos, hc]),
      rows2_tabulate2, cols2_tabulate2 _ _ hrpos]
    have e2 : (tabulate2 (rows2 x) (cols2 x) fun i j =>
        entry2 (tabulate2 (rows2 x) (cols2 x) fun i j =>
          entry2 x i j + entry2 y i j) i j - entry2 y i j) = x := by
      refine Eq.trans ?_ (tabulate2_recon x hx)
      apply tabulate2_congr
      intro i hi j hj
      rw [entry2_tabulate2 _ hi hj]
      ring
    rw [e2]
    rfl

/-- Witness for C3 at `A = [[1, 2], [3, 4]]`, `B = [[10, 20], [30, 40]]`. -/
theorem C3_witness :
    ∃ s : List (List Int),
      Matrix2D.addOp ⟨.d2 [[1, 2], [3, 4]]⟩
          (.matrix ⟨.d2 [[10, 20], [30, 40]]⟩) = .ok ⟨.d2 s⟩ ∧
      rows2 s = 2 ∧ cols2 s = 2 ∧
      (∀ i j, i < 2 → j < 2 →
        entry2 s i j =
          entry2 [[1, 2], [3, 4]] i j + entry2 [[10, 20], [30, 40]] i j) ∧
      Matrix2D.subOp ⟨.d2 s⟩ (.matrix ⟨.d2 [[10, 20], [30, 40]]⟩) =
        .ok ⟨.d2 [[1, 2], [3, 4]]⟩ :=
  C3_add_entrywise_sub_roundtrip [[1, 2], [3, 4]] [[10, 20], [30, 40]]
    (by decide) (by decide) (by decide) (by decide) (by decide)

/-- Claim C4: `__matmul__` with any second operand that is not a
`Matrix2D` — raw scalars and raw arrays included — raises `TypeError`
and produces no result; with a `Matrix2D` operand of agreeing inner
dimensions it returns a new matrix wrapping the standard 2-D matrix
product, and with disagreeing inner dimensions the library's
dimension-mismatch `ValueError` propagates. -/
theorem C4_matmul_type_guard_and_product :
    (∀ (A : Matrix2D) (c : Int), A.matmulOp (.scalar c) = .error .typeError) ∧
    (∀ (A : Matrix2D) (a : NDArray), A.matmulOp (.arr a) = .error .typeError) ∧
    (∀ x y : List (List Int), regular2 x → cols2 x = rows2 y →
      ∃ z : List (List Int),
        Matrix2D.matmulOp ⟨.d2 x⟩ (.matrix ⟨.d2 y⟩) = .ok ⟨.d2 z⟩ ∧
        rows2 z = rows2 x ∧ (∀ row ∈ z, row.length = cols2 y) ∧
        ∀ i j, i < rows2 x → j < cols2 y →
          entry2 z i j =
            ∑ k ∈ Finset.range (cols2 x), entry2 x i k * entry2 y k j) ∧
    (∀ x y : List (List Int), cols2 x ≠ rows2 y →
      Matrix2D.matmulOp ⟨.d2 x⟩ (.matrix ⟨.d2 y⟩) = .error .valueError) := by
  refine ⟨fun A c => rfl, fun A a => rfl, ?_, ?_⟩
  · intro x y hx hdim
    refine ⟨tabulate2 (rows2 x) (cols2 y) fun i j => dot (x.getD i []) (colj y j),
      ?_, rows2_tabulate2 _ _ _, rows_tabulate2 _ _ _, ?_⟩
    · rw [matmulOp_d2]
      unfold npMatmul
      rw [if_pos hdim]
      rfl
    · intro i j hi hj
      rw [entry2_tabulate2 _ hi hj]
      have hlu : (x.getD i []).length = cols2 x := by
        rw [List.getD_eq_getElem _ _ (by simpa [rows2] using hi)]
        exact hx _ (List.getElem_mem _)
      have hlv : (colj y j).length = rows2 y := by simp [colj, rows2]
      rw [dot_eq_sum _ _ (by rw [hlu, hlv, hdim]), hlu]
      apply Finset.sum_congr rfl
      intro k hk
      have hk2 : k < rows2 y := hdim ▸ Finset.mem_range.mp hk
      rw [colj_getD j (by simpa [rows2] using hk2)]
      rfl
  · intro x y hdim
    rw [matmulOp_d2]
    unfold npMatmul
    rw [if_neg hdim]
    rfl

/-- Witness for C4: the type guard at a scalar operand, the product at
the demo matrices `[[6, 8], [8, 10]] @ [[16, 16], [4, 4]]`, and the
dimension-mismatch case `(1, 2) @ (1, 2)`. -/
theorem C4_witness :
    Matrix2D.matmulOp ⟨.d2 [[1, 2]]⟩ (.scalar 7) = .error .typeError ∧
    (∃ z : List (List Int),
      Matrix2D.matmulOp ⟨.d2 [[6, 8], [8, 10]]⟩
          (.matrix ⟨.d2 [[16, 16], [4, 4]]⟩) = .ok ⟨.d2 z⟩ ∧
      rows2 z = 2 ∧ (∀ row ∈ z, row.length = 2) ∧
      ∀ i j, i < 2 → j < 2 →
        entry2 z i j = ∑ k ∈ Finset.range 2,
          entry2 [[6, 8], [8, 10]] i k * entry2 [[16, 16], [4, 4]] k j) ∧
    Matrix2D.matmulOp ⟨.d2 [[1, 2]]⟩ (.matrix ⟨.d2 [[1, 2]]⟩) =
      .error .valueError :=
  ⟨C4_matmul_type_guard_and_product.1 ⟨.d2 [[1, 2]]⟩ 7,
    C4_matmul_type_guard_and_product.2.2.1 [[6, 8], [8, 10]] [[16, 16], [4, 4]]
      (by decide) (by decide),
    C4_matmul_type_guard_and_product.2.2.2 [[1, 2]] [[1, 2]] (by decide)⟩

/-- Counterexample to claim C5 as stated: the rank-3 nested tuple
`(((1,),),)` is a sequence input of rank 3, yet construction fails with
`TypeError` (raised by the `isinstance` guard, which only converts
`list`s), not with the ShapeError (`ValueError`) the claim names. -/
theorem C5_counterexample :
    Matrix2D.init (.pytuple (.l3 [[[1]]])) = .error .typeError ∧
      PyErr.typeError ≠ PyErr.valueError := ⟨rfl, by decide⟩

/-- Claim C5 (amended): for every *array* input whose rank is neither 1
nor 2, and every rank-3 (rectangular, nonempty) *list* input,
construction fails with the ShapeError (`ValueError`) and no instance is
produced; a rank-3 input that is a non-list sequence (a nested tuple)
instead fails with `TypeError` at the type check. -/
theorem C5_rank_guard :
    (∀ a : NDArray, a.ndim ≠ 1 → a.ndim ≠ 2 →
      Matrix2D.init (.pyarray a) = .error .valueError) ∧
    (∀ xsss : List (List (List Int)), xsss ≠ [] → regular3 xsss →
      Matrix2D.init (.pylist (.l3 xsss)) = .error .valueError) ∧
    (∀ t : PyList, Matrix2D.init (.pytuple t) = .error .typeError) := by
  refine ⟨?_, ?_, fun t => rfl⟩
  · intro a h1 h2
    cases a
    · rfl
    · exact absurd rfl h1
    · exact absurd rfl h2
    · rfl
  · intro xsss hne hreg
    cases xsss with
    | nil => exact absurd rfl hne
    | cons u t => rfl

/-- Witness for C5 at a rank-3 array, a rank-0 array, and a rank-3
nested list. -/
theorem C5_witness :
    Matrix2D.init (.pyarray (.d3 [[[1]]])) = .error .valueError ∧
    Matrix2D.init (.pyarray (.d0 7)) = .error .valueError ∧
    Matrix2D.init (.pylist (.l3 [[[1, 2]], [[3, 4]]])) = .error .valueError :=
  ⟨C5_rank_guard.1 (.d3 [[[1]]]) (by decide) (by decide),
    C5_rank_guard.1 (.d0 7) (by decide) (by decide),
    C5_rank_guard.2.1 [[[1, 2]], [[3, 4]]] (by decide) (by decide)⟩

/-- Counterexample to claim C6 as stated: a tuple-of-tuples of numbers,
`((1, 2), (3, 4))`, is a nested sequence of numbers, yet construction
rejects it with `TypeError` — the code's `isinstance(data, list)` check
converts only `list`s. -/
theorem C6_counterexample :
    Matrix2D.init (.pytuple (.l2 [[1, 2], [3, 4]])) = .error .typeError := rfl

/-- Claim C6 (amended): construction accepts nested *lists* of numbers
(rectangular, converting them to an array) and existing arrays of rank 1
or 2, and fails with `TypeError` exactly when the input is neither a
list nor an array — in particular every tuple (a tuple-of-tuples
included) and every raw scalar is rejected with `TypeError`. -/
theorem C6_constructor_type_guard :
    (∀ d : PyData, Matrix2D.init d = .error .typeError ↔
      (∃ t, d = .pytuple t) ∨ (∃ c, d = .pyscalar c)) ∧
    (∀ xs : List Int, ∃ m, Matrix2D.init (.pylist (.l1 xs)) = .ok m) ∧
    (∀ xss : List (List Int), regular2 xss →
      ∃ m, Matrix2D.init (.pylist (.l2 xss)) = .ok m) ∧
    (∀ a : NDArray, a.ndim = 1 ∨ a.ndim = 2 →
      ∃ m, Matrix2D.init (.pyarray a) = .ok m) := by
  refine ⟨?_, ?_, ?_, ?_⟩
  · intro d
    constructor
    · intro h
      cases d with
      | pylist l => exact absurd h (normalize_ne_typeError _)
      | pyarray a => exact absurd h (normalize_ne_typeError _)
      | pytuple t => exact Or.inl ⟨t, rfl⟩
      | pyscalar c => exact Or.inr ⟨c, rfl⟩
    · rintro (⟨t, rfl⟩ | ⟨c, rfl⟩) <;> rfl
  · intro xs
    exact ⟨⟨.d2 [xs]⟩, rfl⟩
  · intro xss hreg
    cases xss with
    | nil => exact ⟨⟨.d2 [[]]⟩, rfl⟩
    | cons a l => exact ⟨⟨.d2 (a :: l)⟩, rfl⟩
  · intro a h
    cases a with
    | d0 c => rcases h with h | h <;> simp [NDArray.ndim] at h
    | d1 xs => exact ⟨⟨.d2 [xs]⟩, rfl⟩
    | d2 xss => exact ⟨⟨.d2 xss⟩, rfl⟩
    | d3 t => rcases h with h | h <;> simp [NDArray.ndim] at h

/-- Witness for C6 at a rectangular nested list and a rank-1 array. -/
theorem C6_witness :
    (∃ m, Matrix2D.init (.pylist (.l2 [[1, 2], [3, 4]])) = .ok m) ∧
    (∃ m, Matrix2D.init (.pyarray (.d1 [5, 6])) = .ok m) :=
  ⟨C6_constructor_type_guard.2.2.1 [[1, 2], [3, 4]] (by decide),
    C6_constructor_type_guard.2.2.2 (.d1 [5, 6]) (Or.inl rfl)⟩

/-- Claim C7: after every successful construction and after every
successful operation (`__add__`, `__sub__`, `__mul__`, `__matmul__`,
`__pow__`), the wrapped array is rank-2; no reachable `Matrix2D` ever
holds an array of any other rank — every produced instance passes
through the constructor's rank normalisation. -/
theorem C7_rank2_invariant :
    (∀ (d : PyData) (m : Matrix2D), Matrix2D.init d = .ok m → m.mat.ndim = 2) ∧
    (∀ (A m : Matrix2D) (o : Operand), A.addOp o = .ok m → m.mat.ndim = 2) ∧
    (∀ (A m : Matrix2D) (o : Operand), A.subOp o = .ok m → m.mat.ndim = 2) ∧
    (∀ (A m : Matrix2D) (o : Operand), A.mulOp o = .ok m → m.mat.ndim = 2) ∧
    (∀ (A m : Matrix2D) (o : Operand), A.matmulOp o = .ok m → m.mat.ndim = 2) ∧
    (∀ (A m : Matrix2D) (p : Nat), A.powOp p = .ok m → m.mat.ndim = 2) := by
  have hbin : ∀ (f : Int → Int → Int) (A m : Matrix2D) (o : Operand),
      (npBinop f A.mat o.val).bind Matrix2D.normalize = .ok m →
        m.mat.ndim = 2 := by
    intro f A m o h
    obtain ⟨v, _, hv⟩ := except_bind_ok h
    exact normalize_ok_ndim hv
  refine ⟨?_, fun A m o h => hbin (· + ·) A m o h,
    fun A m o h => hbin (· - ·) A m o h,
    fun A m o h => hbin (· * ·) A m o h, ?_, ?_⟩
  · intro d m h
    cases d with
    | pylist l => exact normalize_ok_ndim h
    | pyarray a => exact normalize_ok_ndim h
    | pytuple t => exact absurd h (by simp [Matrix2D.init])
    | pyscalar c => exact absurd h (by simp [Matrix2D.init])
  · intro A m o h
    obtain ⟨a⟩ := A
    cases o with
    | scalar c => exact absurd h (by simp [Matrix2D.matmulOp])
    | arr b => exact absurd h (by simp [Matrix2D.matmulOp])
    | matrix B =>
      obtain ⟨b⟩ := B
      cases a with
      | d2 x =>
        cases b with
        | d2 y =>
          rw [matmulOp_d2] at h
          obtain ⟨v, _, hv⟩ := except_bind_ok h
          exact normalize_ok_ndim hv
        | d0 c => exact absurd h (by simp [Matrix2D.matmulOp])
        | d1 xs => exact absurd h (by simp [Matrix2D.matmulOp])
        | d3 t => exact absurd h (by simp [Matrix2D.matmulOp])
      | d0 c => cases b <;> exact absurd h (by simp [Matrix2D.matmulOp])
      | d1 xs => cases b <;> exact absurd h (by simp [Matrix2D.matmulOp])
      | d3 t => cases b <;> exact absurd h (by simp [Matrix2D.matmulOp])
  · intro A m p h
    exact normalize_ok_ndim h

/-- Witness for C7: the constructed demo matrix `Matrix2D([5, 6])` is
rank-2. -/
theorem C7_witness :
    Matrix2D.init (.pylist (.l1 [5, 6])) = .ok ⟨.d2 [[5, 6]]⟩ ∧
    NDArray.ndim (Matrix2D.mk (.d2 [[5, 6]])).mat = 2 :=
  ⟨rfl, C7_rank2_invariant.1 (.pylist (.l1 [5, 6])) ⟨.d2 [[5, 6]]⟩ rfl⟩

/-- Claim C8: for every operation (`__add__`, `__sub__`, `__mul__`,
`__matmul__`, `__pow__`) and all valid operands, neither operand's
wrapped array is mutated — the whole pre-existing heap, and in
particular both operands' arrays, is unchanged by the call — and the
result is a new `Matrix2D` wrapping a freshly allocated array
(`h.length ≤ R.mat`) aliased to neither operand's array. -/
theorem C8_operators_never_mutate :
    (∀ (h : Heap) (A : MatrixRef) (o : OperandH) (h2 : Heap) (R : MatrixRef),
      A.mat < h.length → o.inBounds h → addOpH h A o = .ok (h2, R) →
        frameOk h A o h2 R) ∧
    (∀ (h : Heap) (A : MatrixRef) (o : OperandH) (h2 : Heap) (R : MatrixRef),
      A.mat < h.length → o.inBounds h → subOpH h A o = .ok (h2, R) →
        frameOk h A o h2 R) ∧
    (∀ (h : Heap) (A : MatrixRef) (o : OperandH) (h2 : Heap) (R : MatrixRef),
      A.mat < h.length → o.inBounds h → mulOpH h A o = .ok (h2, R) →
        frameOk h A o h2 R) ∧
    (∀ (h : Heap) (A : MatrixRef) (o : OperandH) (h2 : Heap) (R : MatrixRef),
      A.mat < h.length → o.inBounds h → matmulOpH h A o = .ok (h2, R) →
        frameOk h A o h2 R) ∧
    (∀ (h : Heap) (A : MatrixRef) (p : Nat) (h2 : Heap) (R : MatrixRef),
      A.mat < h.length → powOpH h A p = .ok (h2, R) →
        (∀ i, i < h.length → readA h2 i = readA h i) ∧
        readA h2 A.mat = readA h A.mat ∧ h.length ≤ R.mat ∧ R.mat ≠ A.mat) := by
  have pack : ∀ (h : Heap) (A : MatrixRef) (o : OperandH) (h2 : Heap)
      (R : MatrixRef), A.mat < h.length → o.inBounds h →
      ((∀ i, i < h.length → readA h2 i = readA h i) ∧ h.length ≤ R.mat) →
      frameOk h A o h2 R := by
    intro h A o h2 R hA hoB hfr
    obtain ⟨hpre, hfresh⟩ := hfr
    refine ⟨hpre, hpre _ hA, ?_, hfresh, by omega⟩
    rintro B rfl
    have hB2 : B.mat < h.length := hoB
    exact ⟨hpre _ hB2, by omega⟩
  refine ⟨fun h A o h2 R hA hoB hok => pack h A o h2 R hA hoB (binOpH_frame hok),
    fun h A o h2 R hA hoB hok => pack h A o h2 R hA hoB (binOpH_frame hok),
    fun h A o h2 R hA hoB hok => pack h A o h2 R hA hoB (binOpH_frame hok),
    fun h A o h2 R hA hoB hok => pack h A o h2 R hA hoB (matmulOpH_frame hok),
    ?_⟩
  intro h A p h2 R hA hok
  obtain ⟨hpre, hfresh⟩ := powOpH_frame hok
  exact ⟨hpre, hpre _ hA, hfresh, by omega⟩

/-- Witness for C8: `__add__` on the two-matrix heap
`[[[1, 2]], [[3, 4]]]` allocates `[[4, 6]]` at the fresh address 2 and
leaves both operand arrays untouched. -/
theorem C8_witness :
    frameOk [NDArray.d2 [[1, 2]], NDArray.d2 [[3, 4]]] ⟨0⟩ (.matrix ⟨1⟩)
      [NDArray.d2 [[1, 2]], NDArray.d2 [[3, 4]], NDArray.d2 [[4, 6]]] ⟨2⟩ :=
  C8_operators_never_mutate.1 [NDArray.d2 [[1, 2]], NDArray.d2 [[3, 4]]]
    ⟨0⟩ (.matrix ⟨1⟩) [NDArray.d2 [[1, 2]], NDArray.d2 [[3, 4]], NDArray.d2 [[4, 6]]]
    ⟨2⟩ (by decide) (by show (1 : Nat) < 2; decide) rfl

/-- Claim C9: construction and every operation are deterministic — the
resulting matrix contents are a function of the operand contents alone.
Two runs from arbitrary heaps on identical inputs (same list, or
operands holding equal arrays) produce identical contents, error
outcomes included: the model has no randomness source. -/
theorem C9_deterministic :
    (∀ (h1 h2 : Heap) (l : PyList),
      runVal (initH h1 (.pylist l)) = runVal (initH h2 (.pylist l))) ∧
    (∀ (h1 h2 : Heap) (A1 B1 A2 B2 : MatrixRef),
      readA h1 A1.mat = readA h2 A2.mat →
      readA h1 B1.mat = readA h2 B2.mat →
      runVal (addOpH h1 A1 (.matrix B1)) = runVal (addOpH h2 A2 (.matrix B2)) ∧
      runVal (subOpH h1 A1 (.matrix B1)) = runVal (subOpH h2 A2 (.matrix B2)) ∧
      runVal (mulOpH h1 A1 (.matrix B1)) = runVal (mulOpH h2 A2 (.matrix B2)) ∧
      runVal (matmulOpH h1 A1 (.matrix B1)) =
        runVal (matmulOpH h2 A2 (.matrix B2))) ∧
    (∀ (h1 h2 : Heap) (A1 A2 : MatrixRef) (p : Nat),
      readA h1 A1.mat = readA h2 A2.mat →
      runVal (powOpH h1 A1 p) = runVal (powOpH h2 A2 p)) := by
  refine ⟨?_, ?_, ?_⟩
  · intro h1 h2 l
    rw [initH_pylist_val, initH_pylist_val]
  · intro h1 h2 A1 B1 A2 B2 hA hB
    refine ⟨?_, ?_, ?_, ?_⟩
    · unfold addOpH
      rw [binOpH_val, binOpH_val]
      simp only [OperandH.val]
      rw [hA, hB]
    · unfold subOpH
      rw [binOpH_val, binOpH_val]
      simp only [OperandH.val]
      rw [hA, hB]
    · unfold mulOpH
      rw [binOpH_val, binOpH_val]
      simp only [OperandH.val]
      rw [hA, hB]
    · rw [matmulOpH_val, matmulOpH_val, hA, hB]
  · intro h1 h2 A1 A2 p hA
    rw [powOpH_val, powOpH_val, hA]

/-- Witness for C9: the same two matrices at swapped addresses in two
different heaps produce identical contents under all four binary
operators. -/
theorem C9_witness :
    runVal (addOpH [NDArray.d2 [[1, 2]], NDArray.d2 [[3, 4]]] ⟨0⟩ (.matrix ⟨1⟩)) =
      runVal (addOpH [NDArray.d2 [[3, 4]], NDArray.d2 [[1, 2]]] ⟨1⟩ (.matrix ⟨0⟩)) ∧
    runVal (subOpH [NDArray.d2 [[1, 2]], NDArray.d2 [[3, 4]]] ⟨0⟩ (.matrix ⟨1⟩)) =
      runVal (subOpH [NDArray.d2 [[3, 4]], NDArray.d2 [[1, 2]]] ⟨1⟩ (.matrix ⟨0⟩)) ∧
    runVal (mulOpH [NDArray.d2 [[1, 2]], NDArray.d2 [[3, 4]]] ⟨0⟩ (.matrix ⟨1⟩)) =
      runVal (mulOpH [NDArray.d2 [[3, 4]], NDArray.d2 [[1, 2]]] ⟨1⟩ (.matrix ⟨0⟩)) ∧
    runVal (matmulOpH [NDArray.d2 [[1, 2]], NDArray.d2 [[3, 4]]] ⟨0⟩ (.matrix ⟨1⟩)) =
      runVal (matmulOpH [NDArray.d2 [[3, 4]], NDArray.d2 [[1, 2]]] ⟨1⟩ (.matrix ⟨0⟩)) :=
  C9_deterministic.2.1 [NDArray.d2 [[1, 2]], NDArray.d2 [[3, 4]]]
    [NDArray.d2 [[3, 4]], NDArray.d2 [[1, 2]]] ⟨0⟩ ⟨1⟩ ⟨1⟩ ⟨0⟩ rfl rfl

/-- Claim C10 (implicit): when the constructor is handed an existing
rank-2 ndarray, it stores that very array object — the heap is unchanged
and the new `Matrix2D` holds the caller's address — so an external
in-place write to that array changes what the matrix's rendering /
operations (`observeH`, the stored value every method reads) and
`shape()` observe. -/
theorem C10_array_constructor_aliases (h : Heap) (a : Nat)
    (xss : List (List Int)) (ha : readA h a = .d2 xss) :
    initH h (.pyarray a) = .ok (h, ⟨a⟩) ∧
    ∀ v : NDArray, observeH (heapWrite h a v) ⟨a⟩ = v ∧
      shapeH (heapWrite h a v) ⟨a⟩ = v.shape := by
  have halt : a < h.length := readA_lt_of_d2 ha
  constructor
  · have e1 : initH h (.pyarray a) = initArrH h a := rfl
    rw [e1]
    unfold initArrH
    rw [ha]
  · intro v
    have hobs : observeH (heapWrite h a v) ⟨a⟩ = v := by
      unfold observeH heapWrite readA
      rw [List.getD_eq_getElem _ _ (by simpa using halt)]
      exact List.getElem_set_self _
    refine ⟨hobs, ?_⟩
    show (observeH (heapWrite h a v) ⟨a⟩).shape = v.shape
    rw [hobs]

/-- Witness for C10: a one-array heap; after the external write the
matrix at address 0 observes the new value and the new shape. -/
theorem C10_witness :
    initH [NDArray.d2 [[1, 2]]] (.pyarray 0) = .ok ([NDArray.d2 [[1, 2]]], ⟨0⟩) ∧
    observeH (heapWrite [NDArray.d2 [[1, 2]]] 0 (.d2 [[7, 8], [9, 10]])) ⟨0⟩ =
      .d2 [[7, 8], [9, 10]] ∧
    shapeH (heapWrite [NDArray.d2 [[1, 2]]] 0 (.d2 [[7, 8], [9, 10]])) ⟨0⟩ =
      [2, 2] :=
  ⟨(C10_array_constructor_aliases [NDArray.d2 [[1, 2]]] 0 [[1, 2]] rfl).1,
    ((C10_array_constructor_aliases [NDArray.d2 [[1, 2]]] 0 [[1, 2]] rfl).2
      (.d2 [[7, 8], [9, 10]])).1,
    ((C10_array_constructor_aliases [NDArray.d2 [[1, 2]]] 0 [[1, 2]] rfl).2
      (.d2 [[7, 8], [9, 10]])).2⟩

end MatrixReloaded
